import Mathlib

/-!
Verification development for the CGASSEF prototype's impact-aggregation and
derived-metrics engine.  The definitions below are a shallow embedding of the
TypeScript source (src/types/aiService.tsx, src/pages/CompareServicesPage.tsx,
src/pages/VisualizeServicePage copy.tsx, src/pages/ExportServiceDataPage.tsx,
src/pages/CreateServicePage.tsx).  JavaScript numbers are modelled by `ℚ`;
a stored JSON field that may fail to be a number is modelled by `Option ℚ`
(`none` standing for a stored value that is not a number, i.e. whose
`Number(...)` coercion is `NaN`).
-/

/-- The closed enumeration of the 10 lifecycle stage keys, from
`lifecycleStageKeys` in src/types/aiService.tsx. -/
inductive LifecycleStageKey
  | businessUseCaseGeneration
  | dataHandling
  | modelArchitectureExploration
  | modelTraining
  | modelOperation
  | modelEndOfLife
  | materialExtraction
  | hardwareManufacturing
  | hardwareTransport
  | AISystemInstallation
  deriving DecidableEq

/-- The declared order of the 10 keys (`lifecycleStageKeys` array literal). -/
def lifecycleStageKeys : List LifecycleStageKey :=
  [LifecycleStageKey.businessUseCaseGeneration,
   LifecycleStageKey.dataHandling,
   LifecycleStageKey.modelArchitectureExploration,
   LifecycleStageKey.modelTraining,
   LifecycleStageKey.modelOperation,
   LifecycleStageKey.modelEndOfLife,
   LifecycleStageKey.materialExtraction,
   LifecycleStageKey.hardwareManufacturing,
   LifecycleStageKey.hardwareTransport,
   LifecycleStageKey.AISystemInstallation]

/-- The 6 software (operational) keys, from `softwareCycleKeys` in
CompareServicesPage.tsx. -/
def softwareCycleKeys : List LifecycleStageKey :=
  [LifecycleStageKey.businessUseCaseGeneration,
   LifecycleStageKey.dataHandling,
   LifecycleStageKey.modelArchitectureExploration,
   LifecycleStageKey.modelTraining,
   LifecycleStageKey.modelOperation,
   LifecycleStageKey.modelEndOfLife]

/-- The 4 hardware (embodied) keys, from `hardwareCycleKeys` in
CompareServicesPage.tsx. -/
def hardwareCycleKeys : List LifecycleStageKey :=
  [LifecycleStageKey.materialExtraction,
   LifecycleStageKey.hardwareManufacturing,
   LifecycleStageKey.hardwareTransport,
   LifecycleStageKey.AISystemInstallation]

/-- The tagged union `ImpactConfig` from src/types/aiService.tsx.  The
`co2EqInKg` field of an approximation config is `Option ℚ`: `some q` is a
stored numeric value `q`, `none` is a stored value that is not a number
(its JavaScript `Number(...)` coercion is `NaN`). -/
inductive ImpactConfig
  | none
  | approximation (co2EqInKg : Option ℚ)
  | dynamic (httpApiUrl : String) (token : String)
  deriving DecidableEq

/-- The top-level record `AIServiceLifecycleImpact` from
src/types/aiService.tsx.  `cycleStages` is a total mapping (the validity
invariant: exactly one config per each of the 10 keys).  The `$schema`
field is not used by any computation and is omitted. -/
structure AIServiceLifecycleImpact where
  serviceId : String
  name : String
  description : String
  cycleStages : LifecycleStageKey → ImpactConfig

/-- Function `calculateStaticCO2` from CompareServicesPage.tsx (lines 70-76): for an
`approximation` config it returns `Number(config.co2EqInKg) || 0` (a stored
non-number coerces to `NaN`, and `NaN || 0` is `0`; a stored number passes
through unchanged, `0 || 0` being `0` as well); every other mode yields 0. -/
def calculateStaticCO2 (service : AIServiceLifecycleImpact)
    (stageKey : LifecycleStageKey) : ℚ :=
  match service.cycleStages stageKey with
  | ImpactConfig.approximation v => v.getD 0
  | _ => 0

/-- Function `getCO2Value` from "VisualizeServicePage copy.tsx" (lines 30-42), the
stage value resolver covering all three modes.  The `approximation` branch
returns the stored `co2EqInKg` field raw (no coercion), so the result is
`Option ℚ`: `none` means the resolver returned a value that is not a
number.  The `dynamic` branch returns `currentDynamicValues[stageKey] || 0`. -/
def getCO2Value (stageKey : LifecycleStageKey) (config : ImpactConfig)
    (currentDynamicValues : LifecycleStageKey → Option ℚ) : Option ℚ :=
  match config with
  | ImpactConfig.approximation v => v
  | ImpactConfig.dynamic _ _ => some ((currentDynamicValues stageKey).getD 0)
  | ImpactConfig.none => some 0

/-- A cycleStages assignment where every stage is in `none` mode
(`createDefaultCycleStages` from src/types/aiService.tsx). -/
def allNoneStages : LifecycleStageKey → ImpactConfig :=
  fun _ => ImpactConfig.none

/-- A concrete service whose `modelTraining` stage stores the (negative)
approximation value -5 and whose other stages are in `none` mode. -/
def negativeApproxService : AIServiceLifecycleImpact :=
  { serviceId := "svc-neg"
    name := "Negative"
    description := "stores a negative co2EqInKg"
    cycleStages := fun k =>
      match k with
      | LifecycleStageKey.modelTraining => ImpactConfig.approximation (some (-5))
      | _ => ImpactConfig.none }

/-- C1 counterexample: the claim says the resolver coerces any stored value
that is not a valid non-negative number (non-numeric **or negative**) to 0,
so that it always returns a non-negative number.  On the code, a stored
negative approximation value passes through unchanged: both
`calculateStaticCO2` and `getCO2Value` resolve a stored -5 to -5 < 0. -/
theorem C1_resolver_nonneg_counterexample :
    calculateStaticCO2 negativeApproxService LifecycleStageKey.modelTraining = -5 ∧
    calculateStaticCO2 negativeApproxService LifecycleStageKey.modelTraining < 0 ∧
    getCO2Value LifecycleStageKey.modelTraining
      (ImpactConfig.approximation (some (-5))) (fun _ => Option.none) = some (-5) := by
  refine ⟨rfl, by norm_num [calculateStaticCO2, negativeApproxService], rfl⟩

/-- C1 amended: the stage value resolver is a total function (never throws);
`none` yields exactly 0; `dynamic` yields the stored per-stage dynamic value,
or 0 when no entry exists; `approximation` yields the stored `co2EqInKg`
unchanged (`calculateStaticCO2` additionally coerces a stored non-number to
0 via `Number(...) || 0`).  A stored negative value is returned as-is, so the
result is non-negative only under the hypotheses that every stored
approximation value is a non-negative number and every dynamic-state entry
is non-negative. -/
theorem C1_resolver_amended (k : LifecycleStageKey)
    (dyn : LifecycleStageKey → Option ℚ) (u t : String) (v : Option ℚ)
    (s : AIServiceLifecycleImpact)
    (hdyn : ∀ kk q, dyn kk = some q → 0 ≤ q)
    (happrox : ∀ kk q, s.cycleStages kk = ImpactConfig.approximation (some q) → 0 ≤ q) :
    getCO2Value k ImpactConfig.none dyn = some 0 ∧
    getCO2Value k (ImpactConfig.dynamic u t) dyn = some ((dyn k).getD 0) ∧
    getCO2Value k (ImpactConfig.approximation v) dyn = v ∧
    (∀ q, getCO2Value k (ImpactConfig.dynamic u t) dyn = some q → 0 ≤ q) ∧
    0 ≤ calculateStaticCO2 s k := by
  refine ⟨rfl, rfl, rfl, ?_, ?_⟩
  · intro q hq
    have hq' : (dyn k).getD 0 = q := by simpa [getCO2Value] using hq
    subst hq'
    cases hdk : dyn k with
    | none => simp
    | some q' => simpa using hdyn k q' hdk
  · unfold calculateStaticCO2
    cases hc : s.cycleStages k with
    | approximation v' =>
        cases v' with
        | none => simp
        | some q' => simpa using happrox k q' hc
    | none => simp
    | dynamic u' t' => simp

/-- C1 amended witness: the amended resolver theorem applied at a concrete
stage, dynamic state, and service whose stored values satisfy the
non-negativity hypotheses. -/
theorem C1_resolver_amended_witness :
    getCO2Value LifecycleStageKey.modelTraining ImpactConfig.none
      (fun _ => some 2) = some 0 ∧
    0 ≤ calculateStaticCO2
      { serviceId := "w", name := "w", description := "w",
        cycleStages := fun _ => ImpactConfig.approximation (some 3) }
      LifecycleStageKey.modelTraining := by
  have h := C1_resolver_amended LifecycleStageKey.modelTraining
    (fun _ => some 2) "https://api.example" "tok" (some 3)
    { serviceId := "w", name := "w", description := "w",
      cycleStages := fun _ => ImpactConfig.approximation (some 3) }
    (by intro kk q hq; simp only [Option.some.injEq] at hq; subst hq; norm_num)
    (by
      intro kk q hq
      simp only [ImpactConfig.approximation.injEq, Option.some.injEq] at hq
      subst hq
      norm_num)
  exact ⟨h.1, h.2.2.2.2⟩

/-- Constant `DEFAULT_INFERENCE_COUNT` from CompareServicesPage.tsx. -/
def DEFAULT_INFERENCE_COUNT : ℚ := 1000

/-- The lookup `formState.inferenceCounts[service.serviceId] || DEFAULT_INFERENCE_COUNT`
from CompareServicesPage.tsx line 194: an absent entry (`undefined`) and a
stored 0 are both falsy and fall back to the default. -/
def lookupInferenceCount (counts : String → Option ℚ) (id : String) : ℚ :=
  match counts id with
  | some c => if c = 0 then DEFAULT_INFERENCE_COUNT else c
  | Option.none => DEFAULT_INFERENCE_COUNT

/-- The per-service metrics record `ServiceRadarMetrics` from
CompareServicesPage.tsx. -/
structure ServiceRadarMetrics where
  serviceId : String
  name : String
  color : String
  inferenceCount : ℚ
  avgEmbodiedPerInference : ℚ
  avgOperationalPerInference : ℚ
  avgTotalPerInference : ℚ
  totalEmbodiedImpact : ℚ
  totalOperationalImpact : ℚ
  totalImpact : ℚ
  deriving DecidableEq

/-- Step 1 of the metrics `useEffect` in CompareServicesPage.tsx
(lines 193-209): absolute metrics for one service.  The `forEach` loops with
`+=` are left folds; the color string is `hsl(var(--chart-N))` with
`N = index % 5 + 1`.  The comparison metrics never read the dynamic-value
state: only `approximation` stages contribute, via `calculateStaticCO2`. -/
def serviceMetrics (service : AIServiceLifecycleImpact) (index : ℕ)
    (counts : String → Option ℚ) : ServiceRadarMetrics :=
  let totalRequests := lookupInferenceCount counts service.serviceId
  let embodiedImpact :=
    hardwareCycleKeys.foldl (fun acc k => acc + calculateStaticCO2 service k) 0
  let operationalImpact :=
    softwareCycleKeys.foldl (fun acc k => acc + calculateStaticCO2 service k) 0
  let totalImpact := embodiedImpact + operationalImpact
  { serviceId := service.serviceId
    name := service.name
    color := "hsl(var(--chart-" ++ toString (index % 5 + 1) ++ "))"
    inferenceCount := totalRequests
    avgEmbodiedPerInference :=
      if 0 < totalRequests then embodiedImpact / totalRequests else 0
    avgOperationalPerInference :=
      if 0 < totalRequests then operationalImpact / totalRequests else 0
    avgTotalPerInference :=
      if 0 < totalRequests then totalImpact / totalRequests else 0
    totalEmbodiedImpact := embodiedImpact
    totalOperationalImpact := operationalImpact
    totalImpact := totalImpact }

/-- The loop `uploadedServices.map((service, index) => ...)` from
CompareServicesPage.tsx, with the running index made explicit. -/
def allMetricsFrom (counts : String → Option ℚ) (index : ℕ) :
    List AIServiceLifecycleImpact → List ServiceRadarMetrics
  | [] => []
  | s :: rest => serviceMetrics s index counts :: allMetricsFrom counts (index + 1) rest

/-- The full step-1 metrics list (indices starting at 0). -/
def allMetrics (services : List AIServiceLifecycleImpact)
    (counts : String → Option ℚ) : List ServiceRadarMetrics :=
  allMetricsFrom counts 0 services

/-- The 7 radar dimensions, from the `radarDimensions` array in
CompareServicesPage.tsx (declared order). -/
inductive RadarDimensionKey
  | inferenceCount
  | avgEmbodiedPerInference
  | avgOperationalPerInference
  | avgTotalPerInference
  | totalEmbodiedImpact
  | totalOperationalImpact
  | totalImpact
  deriving DecidableEq

/-- The declared order of the radar dimensions. -/
def radarDimensions : List RadarDimensionKey :=
  [RadarDimensionKey.inferenceCount,
   RadarDimensionKey.avgEmbodiedPerInference,
   RadarDimensionKey.avgOperationalPerInference,
   RadarDimensionKey.avgTotalPerInference,
   RadarDimensionKey.totalEmbodiedImpact,
   RadarDimensionKey.totalOperationalImpact,
   RadarDimensionKey.totalImpact]

/-- The raw value `serviceMetrics[dim.key]` of one dimension for one service. -/
def dimValue (d : RadarDimensionKey) (sm : ServiceRadarMetrics) : ℚ :=
  match d with
  | RadarDimensionKey.inferenceCount => sm.inferenceCount
  | RadarDimensionKey.avgEmbodiedPerInference => sm.avgEmbodiedPerInference
  | RadarDimensionKey.avgOperationalPerInference => sm.avgOperationalPerInference
  | RadarDimensionKey.avgTotalPerInference => sm.avgTotalPerInference
  | RadarDimensionKey.totalEmbodiedImpact => sm.totalEmbodiedImpact
  | RadarDimensionKey.totalOperationalImpact => sm.totalOperationalImpact
  | RadarDimensionKey.totalImpact => sm.totalImpact

/-- The axis label of one dimension (`dim.label`). -/
def dimLabel (d : RadarDimensionKey) : String :=
  match d with
  | RadarDimensionKey.inferenceCount => "Inference Count"
  | RadarDimensionKey.avgEmbodiedPerInference => "Avg. Embodied / Inf."
  | RadarDimensionKey.avgOperationalPerInference => "Avg. Operational / Inf."
  | RadarDimensionKey.avgTotalPerInference => "Avg. Total / Inf."
  | RadarDimensionKey.totalEmbodiedImpact => "Total Embodied"
  | RadarDimensionKey.totalOperationalImpact => "Total Operational"
  | RadarDimensionKey.totalImpact => "Total Impact"

/-- Step 2 of the metrics `useEffect` (lines 213-221): the running maximum
`let maxVal = 0; ... if (val > maxVal) maxVal = val` over all services. -/
def maxRaw (d : RadarDimensionKey) (ms : List ServiceRadarMetrics) : ℚ :=
  ms.foldl (fun maxVal sm => if dimValue d sm > maxVal then dimValue d sm else maxVal) 0

/-- The stored per-dimension denominator
`maxValuesPerDimension[dim.key] = maxVal > 0 ? maxVal : 1`. -/
def dimDenom (d : RadarDimensionKey) (ms : List ServiceRadarMetrics) : ℚ :=
  if maxRaw d ms > 0 then maxRaw d ms else 1

/-- Step 3 (lines 224-232): one normalized cell,
`dimensionMax > 0 ? (rawValue / dimensionMax) * 100 : 0`. -/
def normalizedCell (d : RadarDimensionKey) (ms : List ServiceRadarMetrics)
    (sm : ServiceRadarMetrics) : ℚ :=
  if dimDenom d ms > 0 then dimValue d sm / dimDenom d ms * 100 else 0

/-- One radar data point (`RadarDataPoint`): the dimension label and, per
service in input order, the serviceId-keyed normalized cell. -/
structure RadarDataPoint where
  dimension : String
  cells : List (String × ℚ)
  deriving DecidableEq

/-- The normalized radar table `transformedData` (lines 224-232): one data
point per dimension in declared order, one cell per service in input order. -/
def transformedData (ms : List ServiceRadarMetrics) : List RadarDataPoint :=
  radarDimensions.map fun d =>
    { dimension := dimLabel d
      cells := ms.map fun sm => (sm.serviceId, normalizedCell d ms sm) }

/-- The clamp in `handleInferenceCountChange` (CompareServicesPage.tsx lines
164-171): `parseInt` yields `NaN` (modelled `Option.none`) or an integer, and
`isNaN(count) || count < 1 ? 1 : count` is stored. -/
def handleInferenceCountClamp (parsed : Option ℤ) : ℤ :=
  match parsed with
  | Option.none => 1
  | some c => if c < 1 then 1 else c

/-- Scenario example 1: `modelTraining` = approximation/12.5, `modelOperation`
= approximation/3.0, all other stages `none`. -/
def scenario1Service : AIServiceLifecycleImpact :=
  { serviceId := "svc-scenario1"
    name := "Scenario 1"
    description := ""
    cycleStages := fun k =>
      match k with
      | LifecycleStageKey.modelTraining =>
          ImpactConfig.approximation (some (12.5 : ℚ))
      | LifecycleStageKey.modelOperation =>
          ImpactConfig.approximation (some (3 : ℚ))
      | _ => ImpactConfig.none }

/-- C2: for every record (and trivially every dynamic snapshot, which the
comparison metrics never read), the operational total is the sum of resolved
stage values over the 6 software keys, the embodied total the sum over the
4 hardware keys, and the grand total their sum; scenario example 1 with
requestCount 1000 yields operational 15.5, embodied 0, grand 15.5, and
avgTotalPerInference 0.0155. -/
theorem C2_aggregation_totals :
    (∀ (s : AIServiceLifecycleImpact) (index : ℕ) (counts : String → Option ℚ),
      (serviceMetrics s index counts).totalOperationalImpact
          = (softwareCycleKeys.map (calculateStaticCO2 s)).sum ∧
      (serviceMetrics s index counts).totalEmbodiedImpact
          = (hardwareCycleKeys.map (calculateStaticCO2 s)).sum ∧
      (serviceMetrics s index counts).totalImpact
          = (serviceMetrics s index counts).totalOperationalImpact
            + (serviceMetrics s index counts).totalEmbodiedImpact) ∧
    (serviceMetrics scenario1Service 0 (fun _ => some 1000)).totalOperationalImpact
        = 15.5 ∧
    (serviceMetrics scenario1Service 0 (fun _ => some 1000)).totalEmbodiedImpact
        = 0 ∧
    (serviceMetrics scenario1Service 0 (fun _ => some 1000)).totalImpact = 15.5 ∧
    (serviceMetrics scenario1Service 0 (fun _ => some 1000)).avgTotalPerInference
        = 0.0155 := by
  have heval : ∀ k : LifecycleStageKey,
      calculateStaticCO2 scenario1Service k
        = (match k with
           | LifecycleStageKey.modelTraining => (12.5 : ℚ)
           | LifecycleStageKey.modelOperation => (3 : ℚ)
           | _ => 0) := by
    intro k
    cases k <;> rfl
  refine ⟨?_, ?_, ?_, ?_, ?_⟩
  · intro s index counts
    refine ⟨?_, ?_, ?_⟩ <;>
      simp [serviceMetrics, softwareCycleKeys, hardwareCycleKeys] <;> ring
  all_goals
    norm_num [serviceMetrics, lookupInferenceCount, DEFAULT_INFERENCE_COUNT,
      softwareCycleKeys, hardwareCycleKeys, heval]

/-- The clamp result is always at least 1. -/
theorem one_le_handleInferenceCountClamp (v : Option ℤ) :
    1 ≤ handleInferenceCountClamp v := by
  cases v with
  | none => simp [handleInferenceCountClamp]
  | some c =>
      simp only [handleInferenceCountClamp]
      split <;> omega

/-- C5: a supplied request count that is non-numeric (`parseInt` returned
`NaN`) or below 1 — in particular -5 — is clamped to 1 before it is stored,
so the stored count is always a positive number, and every `avg*PerInference`
metric is the corresponding total divided by that positive count (the
guarded branch dividing, never by zero or a negative count). -/
theorem C5_request_count_clamped (s : AIServiceLifecycleImpact) (index : ℕ)
    (counts : String → Option ℚ) (v : Option ℤ)
    (hc : counts s.serviceId = some ((handleInferenceCountClamp v : ℤ) : ℚ)) :
    1 ≤ handleInferenceCountClamp v ∧
    handleInferenceCountClamp (some (-5)) = 1 ∧
    (serviceMetrics s index counts).inferenceCount
        = ((handleInferenceCountClamp v : ℤ) : ℚ) ∧
    0 < (serviceMetrics s index counts).inferenceCount ∧
    (serviceMetrics s index counts).avgTotalPerInference
        = (serviceMetrics s index counts).totalImpact
          / (serviceMetrics s index counts).inferenceCount ∧
    (serviceMetrics s index counts).avgEmbodiedPerInference
        = (serviceMetrics s index counts).totalEmbodiedImpact
          / (serviceMetrics s index counts).inferenceCount ∧
    (serviceMetrics s index counts).avgOperationalPerInference
        = (serviceMetrics s index counts).totalOperationalImpact
          / (serviceMetrics s index counts).inferenceCount := by
  have h1 : (1 : ℤ) ≤ handleInferenceCountClamp v := one_le_handleInferenceCountClamp v
  have hpos : (0 : ℚ) < ((handleInferenceCountClamp v : ℤ) : ℚ) := by
    have h1q : (1 : ℚ) ≤ ((handleInferenceCountClamp v : ℤ) : ℚ) := by exact_mod_cast h1
    linarith
  have hlook : lookupInferenceCount counts s.serviceId
      = ((handleInferenceCountClamp v : ℤ) : ℚ) := by
    unfold lookupInferenceCount
    rw [hc]
    exact if_neg (ne_of_gt hpos)
  refine ⟨h1, rfl, ?_, ?_, ?_, ?_, ?_⟩ <;>
    simp [serviceMetrics, hlook, hpos]

/-- C5 witness: the clamp theorem applied to the concrete supplied value -5
and a service whose stored count is the clamped value 1. -/
theorem C5_request_count_clamped_witness :
    handleInferenceCountClamp (some (-5)) = 1 ∧
    (serviceMetrics scenario1Service 0 (fun _ => some 1)).inferenceCount
        = ((handleInferenceCountClamp (some (-5)) : ℤ) : ℚ) := by
  have h := C5_request_count_clamped scenario1Service 0 (fun _ => some 1)
    (some (-5)) (by norm_num [handleInferenceCountClamp])
  exact ⟨h.1.antisymm (by norm_num [handleInferenceCountClamp]) ▸ rfl, h.2.2.1⟩

/-- The running-maximum step used by `maxRaw`. -/
def maxStep (d : RadarDimensionKey) (maxVal : ℚ) (sm : ServiceRadarMetrics) : ℚ :=
  if dimValue d sm > maxVal then dimValue d sm else maxVal

/-- Def `maxRaw` expressed through `maxStep`. -/
theorem maxRaw_eq_foldl (d : RadarDimensionKey) (ms : List ServiceRadarMetrics) :
    maxRaw d ms = ms.foldl (maxStep d) 0 := rfl

/-- The running maximum never drops below its initial value. -/
theorem foldlMax_init_le (d : RadarDimensionKey) (ms : List ServiceRadarMetrics)
    (a : ℚ) : a ≤ ms.foldl (maxStep d) a := by
  induction ms generalizing a with
  | nil => exact le_refl a
  | cons sm rest ih =>
      refine le_trans ?_ (ih (maxStep d a sm))
      unfold maxStep
      split
      · exact le_of_lt (by assumption)
      · exact le_refl a

/-- Every member's raw value is bounded by the running maximum. -/
theorem foldlMax_mem_le (d : RadarDimensionKey) (ms : List ServiceRadarMetrics)
    (a : ℚ) (sm : ServiceRadarMetrics) (h : sm ∈ ms) :
    dimValue d sm ≤ ms.foldl (maxStep d) a := by
  induction ms generalizing a with
  | nil => cases h
  | cons y rest ih =>
      rcases List.mem_cons.mp h with hy | hrest
      · subst hy
        refine le_trans ?_ (foldlMax_init_le d rest (maxStep d a sm))
        unfold maxStep
        split
        · exact le_refl _
        · exact le_of_not_lt (by assumption)
      · exact ih (maxStep d a y) hrest

/-- The running maximum is either the initial value or attained by a member. -/
theorem foldlMax_eq_init_or_mem (d : RadarDimensionKey)
    (ms : List ServiceRadarMetrics) (a : ℚ) :
    ms.foldl (maxStep d) a = a ∨
      ∃ sm ∈ ms, ms.foldl (maxStep d) a = dimValue d sm := by
  induction ms generalizing a with
  | nil => exact Or.inl rfl
  | cons y rest ih =>
      rcases ih (maxStep d a y) with heq | ⟨sm, hm, he⟩
      · by_cases hgt : dimValue d y > a
        · refine Or.inr ⟨y, List.mem_cons_self y rest, ?_⟩
          rw [List.foldl_cons, heq]
          unfold maxStep
          rw [if_pos hgt]
        · refine Or.inl ?_
          rw [List.foldl_cons, heq]
          unfold maxStep
          rw [if_neg hgt]
      · exact Or.inr ⟨sm, List.mem_cons_of_mem y hm, he⟩

/-- If every member's raw value is 0 the running maximum from 0 stays 0. -/
theorem foldlMax_zero (d : RadarDimensionKey) (ms : List ServiceRadarMetrics)
    (h : ∀ sm ∈ ms, dimValue d sm = 0) : ms.foldl (maxStep d) 0 = 0 := by
  induction ms with
  | nil => rfl
  | cons y rest ih =>
      have hy : dimValue d y = 0 := h y (List.mem_cons_self y rest)
      have hstep : maxStep d 0 y = 0 := by
        unfold maxStep
        rw [hy]
        simp
      simp only [List.foldl_cons, hstep]
      exact ih fun sm hm => h sm (List.mem_cons_of_mem y hm)

/-- The raw maximum starts at 0 and is hence non-negative. -/
theorem maxRaw_nonneg (d : RadarDimensionKey) (ms : List ServiceRadarMetrics) :
    0 ≤ maxRaw d ms := foldlMax_init_le d ms 0

/-- C4: the per-dimension denominator is always positive (never a division
by zero, hence no NaN or Infinity in the exact model), and for a dimension
in which every service reports 0 the substituted denominator is exactly 1
and every normalized cell of that dimension is 0. -/
theorem C4_zero_denominator_safety :
    (∀ (d : RadarDimensionKey) (ms : List ServiceRadarMetrics), 0 < dimDenom d ms) ∧
    (∀ (d : RadarDimensionKey) (ms : List ServiceRadarMetrics),
      (∀ sm ∈ ms, dimValue d sm = 0) →
      dimDenom d ms = 1 ∧ ∀ sm ∈ ms, normalizedCell d ms sm = 0) := by
  constructor
  · intro d ms
    unfold dimDenom
    split
    · assumption
    · norm_num
  · intro d ms h
    have hmax : maxRaw d ms = 0 := by
      rw [maxRaw_eq_foldl]
      exact foldlMax_zero d ms h
    have hden : dimDenom d ms = 1 := by
      unfold dimDenom
      rw [hmax]
      norm_num
    refine ⟨hden, fun sm hm => ?_⟩
    unfold normalizedCell
    rw [hden, h sm hm]
    norm_num

/-- A service with every stage in `none` mode. -/
def allNoneService : AIServiceLifecycleImpact :=
  { serviceId := "svc-none"
    name := "All none"
    description := ""
    cycleStages := allNoneStages }

/-- C4 witness: for the singleton comparison of a service with all stages in
`none` mode, every raw `totalImpact` value is 0, the denominator is 1, and
every normalized `totalImpact` cell is 0. -/
theorem C4_zero_denominator_safety_witness :
    dimDenom RadarDimensionKey.totalImpact
      (allMetrics [allNoneService] (fun _ => Option.none)) = 1 ∧
    ∀ sm ∈ allMetrics [allNoneService] (fun _ => Option.none),
      normalizedCell RadarDimensionKey.totalImpact
        (allMetrics [allNoneService] (fun _ => Option.none)) sm = 0 := by
  have hzero : ∀ sm ∈ allMetrics [allNoneService] (fun _ => Option.none),
      dimValue RadarDimensionKey.totalImpact sm = 0 := by
    intro sm hm
    simp only [allMetrics, allMetricsFrom, List.mem_singleton] at hm
    subst hm
    norm_num [dimValue, serviceMetrics, allNoneService, allNoneStages,
      hardwareCycleKeys, softwareCycleKeys, calculateStaticCO2]
  exact C4_zero_denominator_safety.2 RadarDimensionKey.totalImpact
    (allMetrics [allNoneService] (fun _ => Option.none)) hzero

/-- A service whose only nonzero stage stores approximation value 10
(service "A" of scenario example 2). -/
def svcA10 : AIServiceLifecycleImpact :=
  { serviceId := "svc-A"
    name := "A"
    description := ""
    cycleStages := fun k =>
      match k with
      | LifecycleStageKey.modelTraining => ImpactConfig.approximation (some 10)
      | _ => ImpactConfig.none }

/-- A service whose only nonzero stage stores approximation value 40
(service "B" of scenario example 2). -/
def svcB40 : AIServiceLifecycleImpact :=
  { serviceId := "svc-B"
    name := "B"
    description := ""
    cycleStages := fun k =>
      match k with
      | LifecycleStageKey.modelTraining => ImpactConfig.approximation (some 40)
      | _ => ImpactConfig.none }

/-- A service whose only nonzero stage stores approximation value -10, so
its raw `totalImpact` metric is the negative number -10. -/
def svcNeg10 : AIServiceLifecycleImpact :=
  { serviceId := "svc-negten"
    name := "NegTen"
    description := ""
    cycleStages := fun k =>
      match k with
      | LifecycleStageKey.modelTraining => ImpactConfig.approximation (some (-10))
      | _ => ImpactConfig.none }

/-- C3 counterexample: the claim asserts every normalized cell lies in
[0, 100] for every list of input service metrics.  A comparison of a service
with raw `totalImpact` -10 (reachable from an uploaded file storing a
negative `co2EqInKg`, which passes the structural check) against one with
raw `totalImpact` 40 produces the normalized cell -10 / 40 * 100 = -25 < 0. -/
theorem C3_normalization_counterexample :
    normalizedCell RadarDimensionKey.totalImpact
      (allMetrics [svcNeg10, svcB40] (fun _ => Option.none))
      (serviceMetrics svcNeg10 0 (fun _ => Option.none)) = -25 ∧
    ¬ (0 ≤ normalizedCell RadarDimensionKey.totalImpact
      (allMetrics [svcNeg10, svcB40] (fun _ => Option.none))
      (serviceMetrics svcNeg10 0 (fun _ => Option.none))) := by
  have hneg : ∀ k : LifecycleStageKey,
      calculateStaticCO2 svcNeg10 k
        = (match k with
           | LifecycleStageKey.modelTraining => (-10 : ℚ)
           | _ => 0) := fun k => by cases k <;> rfl
  have hb : ∀ k : LifecycleStageKey,
      calculateStaticCO2 svcB40 k
        = (match k with
           | LifecycleStageKey.modelTraining => (40 : ℚ)
           | _ => 0) := fun k => by cases k <;> rfl
  have hcell : normalizedCell RadarDimensionKey.totalImpact
      (allMetrics [svcNeg10, svcB40] (fun _ => Option.none))
      (serviceMetrics svcNeg10 0 (fun _ => Option.none)) = -25 := by
    norm_num [normalizedCell, dimDenom, maxRaw, allMetrics, allMetricsFrom,
      dimValue, serviceMetrics, lookupInferenceCount, DEFAULT_INFERENCE_COUNT,
      hardwareCycleKeys, softwareCycleKeys, hneg, hb]
  exact ⟨hcell, by rw [hcell]; norm_num⟩

/-- C3 amended: provided every raw value of the input metrics is
non-negative, every normalized cell equals rawValue / maxValue * 100
whenever the dimension's raw maximum is nonzero (with denominator 1 and all
cells 0 otherwise), every cell lies in [0, 100], and for every dimension
with nonzero raw maximum at least one service's cell is exactly 100; for
the two-service instance A (totalImpact 10) and B (totalImpact 40) the
normalized totalImpact cells are 25 and 100. -/
theorem C3_normalization_amended :
    (∀ (ms : List ServiceRadarMetrics) (d : RadarDimensionKey),
      (∀ sm ∈ ms, 0 ≤ dimValue d sm) →
      ∀ sm ∈ ms,
        0 ≤ normalizedCell d ms sm ∧ normalizedCell d ms sm ≤ 100 ∧
        (maxRaw d ms ≠ 0 →
          normalizedCell d ms sm = dimValue d sm / maxRaw d ms * 100 ∧
          ∃ sm' ∈ ms, normalizedCell d ms sm' = 100)) ∧
    normalizedCell RadarDimensionKey.totalImpact
      (allMetrics [svcA10, svcB40] (fun _ => Option.none))
      (serviceMetrics svcA10 0 (fun _ => Option.none)) = 25 ∧
    normalizedCell RadarDimensionKey.totalImpact
      (allMetrics [svcA10, svcB40] (fun _ => Option.none))
      (serviceMetrics svcB40 1 (fun _ => Option.none)) = 100 := by
  refine ⟨?_, ?_, ?_⟩
  · intro ms d h sm hm
    have h0 : 0 ≤ maxRaw d ms := maxRaw_nonneg d ms
    have hle : dimValue d sm ≤ maxRaw d ms := foldlMax_mem_le d ms 0 sm hm
    have hsm0 : 0 ≤ dimValue d sm := h sm hm
    by_cases hpos : 0 < maxRaw d ms
    · have hden : dimDenom d ms = maxRaw d ms := if_pos hpos
      have hcell : normalizedCell d ms sm
          = dimValue d sm / maxRaw d ms * 100 := by
        unfold normalizedCell
        rw [hden, if_pos hpos]
      refine ⟨?_, ?_, fun _ => ⟨hcell, ?_⟩⟩
      · rw [hcell]
        exact mul_nonneg (div_nonneg hsm0 h0) (by norm_num)
      · rw [hcell]
        have hdiv : dimValue d sm / maxRaw d ms ≤ 1 := (div_le_one hpos).mpr hle
        nlinarith
      · rcases foldlMax_eq_init_or_mem d ms 0 with hz | ⟨sm', hm', he⟩
        · rw [maxRaw_eq_foldl] at hpos
          rw [hz] at hpos
          exact absurd hpos (lt_irrefl 0)
        · refine ⟨sm', hm', ?_⟩
          unfold normalizedCell
          rw [hden, if_pos hpos, maxRaw_eq_foldl, he,
            div_self (by rw [maxRaw_eq_foldl, he] at hpos; exact ne_of_gt hpos),
            one_mul]
    · have hz : maxRaw d ms = 0 := le_antisymm (not_lt.mp hpos) h0
      have hsm : dimValue d sm = 0 := le_antisymm (hz ▸ hle) hsm0
      have hden : dimDenom d ms = 1 := by
        unfold dimDenom
        rw [hz]
        norm_num
      have hcell : normalizedCell d ms sm = 0 := by
        unfold normalizedCell
        rw [hden, hsm]
        norm_num
      exact ⟨le_of_eq hcell.symm, by rw [hcell]; norm_num,
        fun hne => absurd hz hne⟩
  all_goals
    have ha : ∀ k : LifecycleStageKey,
        calculateStaticCO2 svcA10 k
          = (match k with
             | LifecycleStageKey.modelTraining => (10 : ℚ)
             | _ => 0) := fun k => by cases k <;> rfl
    have hb : ∀ k : LifecycleStageKey,
        calculateStaticCO2 svcB40 k
          = (match k with
             | LifecycleStageKey.modelTraining => (40 : ℚ)
             | _ => 0) := fun k => by cases k <;> rfl
    norm_num [normalizedCell, dimDenom, maxRaw, allMetrics, allMetricsFrom,
      dimValue, serviceMetrics, lookupInferenceCount, DEFAULT_INFERENCE_COUNT,
      hardwareCycleKeys, softwareCycleKeys, ha, hb]

/-- C3 amended witness: the amended normalization theorem applied to the
concrete scenario-2 metrics list, whose raw values are all non-negative. -/
theorem C3_normalization_amended_witness :
    0 ≤ normalizedCell RadarDimensionKey.totalImpact
        (allMetrics [svcA10, svcB40] (fun _ => Option.none))
        (serviceMetrics svcA10 0 (fun _ => Option.none)) ∧
    normalizedCell RadarDimensionKey.totalImpact
        (allMetrics [svcA10, svcB40] (fun _ => Option.none))
        (serviceMetrics svcA10 0 (fun _ => Option.none)) ≤ 100 := by
  have ha : ∀ k : LifecycleStageKey,
      calculateStaticCO2 svcA10 k
        = (match k with
           | LifecycleStageKey.modelTraining => (10 : ℚ)
           | _ => 0) := fun k => by cases k <;> rfl
  have hb : ∀ k : LifecycleStageKey,
      calculateStaticCO2 svcB40 k
        = (match k with
           | LifecycleStageKey.modelTraining => (40 : ℚ)
           | _ => 0) := fun k => by cases k <;> rfl
  have hnn : ∀ sm ∈ allMetrics [svcA10, svcB40] (fun _ => Option.none),
      0 ≤ dimValue RadarDimensionKey.totalImpact sm := by
    intro sm hm
    simp only [allMetrics, allMetricsFrom, List.mem_cons,
      List.not_mem_nil, or_false] at hm
    rcases hm with hm | hm <;> subst hm <;>
      norm_num [dimValue, serviceMetrics, lookupInferenceCount,
        DEFAULT_INFERENCE_COUNT, hardwareCycleKeys, softwareCycleKeys, ha, hb]
  have hmem : serviceMetrics svcA10 0 (fun _ => Option.none)
      ∈ allMetrics [svcA10, svcB40] (fun _ => Option.none) := by
    simp [allMetrics, allMetricsFrom]
  have h := (C3_normalization_amended.1
    (allMetrics [svcA10, svcB40] (fun _ => Option.none))
    RadarDimensionKey.totalImpact hnn
    (serviceMetrics svcA10 0 (fun _ => Option.none)) hmem)
  exact ⟨h.1, h.2.1⟩

/-- Constant `STAGE_LABELS` from src/constants/lifecycleStages.ts: the human-readable
label of each stage key (total, so the `|| stageKey` fallback in the export
is dead code). -/
def STAGE_LABELS (k : LifecycleStageKey) : String :=
  match k with
  | LifecycleStageKey.businessUseCaseGeneration => "Business Use Case Generation"
  | LifecycleStageKey.dataHandling => "Data Handling"
  | LifecycleStageKey.modelArchitectureExploration => "Model Architecture Exploration"
  | LifecycleStageKey.modelTraining => "Model Training"
  | LifecycleStageKey.modelOperation => "Model Operation (Inference)"
  | LifecycleStageKey.modelEndOfLife => "Model End-of-Life"
  | LifecycleStageKey.materialExtraction => "Material Extraction"
  | LifecycleStageKey.hardwareManufacturing => "Hardware Manufacturing"
  | LifecycleStageKey.hardwareTransport => "Hardware Transport"
  | LifecycleStageKey.AISystemInstallation => "AI System Installation"

/-- The mode discriminant string `impactCalculationMode`. -/
def impactCalculationModeStr (c : ImpactConfig) : String :=
  match c with
  | ImpactConfig.none => "none"
  | ImpactConfig.approximation _ => "approximation"
  | ImpactConfig.dynamic _ _ => "dynamic"

/-- The CSV value column `co2EqInKg?: number | string` of a `CsvRow`:
a number, a copied-through stored non-number, or a marker string. -/
inductive CsvValue
  | num (q : ℚ)
  | nonNum
  | str (s : String)
  deriving DecidableEq

/-- One flat export row, `CsvRow` from ExportServiceDataPage.tsx
(src/unnamed/part_012 lines 14-24).  The token field of a dynamic config has
no counterpart here — the interface has no token column at all. -/
structure CsvRow where
  serviceId : String
  serviceName : String
  serviceDescription : String
  lifecycleStageKey : LifecycleStageKey
  lifecycleStageLabel : String
  impactCalculationMode : String
  co2EqInKg : CsvValue
  httpApiUrl : Option String
  deriving DecidableEq

/-- One row of `handleExportToCsv` (part_012 lines 66-91): metadata columns
from the record, then the per-mode value columns — `approximation` copies
the stored `co2EqInKg`, `dynamic` writes the fixed placeholder string
"Dynamic (API)" and the API URL (the token is not exported), `none`
writes the number 0. -/
def exportRow (s : AIServiceLifecycleImpact) (stageKey : LifecycleStageKey) : CsvRow :=
  let config := s.cycleStages stageKey
  { serviceId := s.serviceId
    serviceName := s.name
    serviceDescription := s.description
    lifecycleStageKey := stageKey
    lifecycleStageLabel := STAGE_LABELS stageKey
    impactCalculationMode := impactCalculationModeStr config
    co2EqInKg :=
      match config with
      | ImpactConfig.approximation (some q) => CsvValue.num q
      | ImpactConfig.approximation Option.none => CsvValue.nonNum
      | ImpactConfig.dynamic _ _ => CsvValue.str "Dynamic (API)"
      | ImpactConfig.none => CsvValue.num 0
    httpApiUrl :=
      match config with
      | ImpactConfig.dynamic url _ => some url
      | _ => Option.none }

/-- The `csvData` rows built by `handleExportToCsv`: one row per key of
`lifecycleStageKeys`, in declared order (the `if (config)` guard always
holds since `cycleStages` is total on a valid record). -/
def handleExportToCsvRows (s : AIServiceLifecycleImpact) : List CsvRow :=
  lifecycleStageKeys.map (exportRow s)

/-- Every stage key occurs in the declared key list. -/
theorem mem_lifecycleStageKeys (k : LifecycleStageKey) :
    k ∈ lifecycleStageKeys := by
  cases k <;> simp [lifecycleStageKeys]

/-- C6: for every valid record (one config per each of the 10 canonical
keys, which the total `cycleStages` mapping enforces), the export yields
exactly 10 rows, one per canonical stage key, in the fixed declared
enumeration order — the 6 software keys first, then the 4 hardware keys —
no matter how many stages are in `none` mode. -/
theorem C6_export_row_count (s : AIServiceLifecycleImpact) :
    (handleExportToCsvRows s).length = 10 ∧
    (handleExportToCsvRows s).map CsvRow.lifecycleStageKey = lifecycleStageKeys ∧
    lifecycleStageKeys = softwareCycleKeys ++ hardwareCycleKeys := by
  refine ⟨rfl, ?_, rfl⟩
  simp [handleExportToCsvRows, exportRow, lifecycleStageKeys]

/-- Erase every dynamic-stage token of a record, keeping everything else. -/
def eraseTokens (s : AIServiceLifecycleImpact) : AIServiceLifecycleImpact :=
  { s with
    cycleStages := fun k =>
      match s.cycleStages k with
      | ImpactConfig.dynamic url _ => ImpactConfig.dynamic url ""
      | c => c }

/-- A single export row is unchanged by token erasure. -/
theorem exportRow_eraseTokens (s : AIServiceLifecycleImpact)
    (k : LifecycleStageKey) : exportRow (eraseTokens s) k = exportRow s k := by
  unfold exportRow eraseTokens
  cases hc : s.cycleStages k <;> simp [hc, impactCalculationModeStr]

/-- C7: a row exported for a `dynamic` stage carries the fixed placeholder
marker "Dynamic (API)" (a string, not a number) in the value column and the
stage's API URL in a separate column, and no exported row depends on any
token value: records that agree after erasing their dynamic tokens export
identical row sequences. -/
theorem C7_token_confidentiality (s s1 s2 : AIServiceLifecycleImpact)
    (k : LifecycleStageKey) (url token : String)
    (hdyn : s.cycleStages k = ImpactConfig.dynamic url token)
    (herase : eraseTokens s1 = eraseTokens s2) :
    (exportRow s k).co2EqInKg = CsvValue.str "Dynamic (API)" ∧
    (exportRow s k).httpApiUrl = some url ∧
    exportRow s k ∈ handleExportToCsvRows s ∧
    handleExportToCsvRows s1 = handleExportToCsvRows s2 := by
  refine ⟨?_, ?_, ?_, ?_⟩
  · simp [exportRow, hdyn]
  · simp [exportRow, hdyn]
  · exact List.mem_map_of_mem (exportRow s) (mem_lifecycleStageKeys k)
  · calc handleExportToCsvRows s1
        = handleExportToCsvRows (eraseTokens s1) := by
          unfold handleExportToCsvRows
          exact (List.map_congr_left fun k _ => exportRow_eraseTokens s1 k).symm
      _ = handleExportToCsvRows (eraseTokens s2) := by rw [herase]
      _ = handleExportToCsvRows s2 := by
          unfold handleExportToCsvRows
          exact List.map_congr_left fun k _ => exportRow_eraseTokens s2 k

/-- A concrete record with a dynamic `modelOperation` stage and token "secretA". -/
def dynServiceA : AIServiceLifecycleImpact :=
  { serviceId := "svc-dyn"
    name := "Dyn"
    description := ""
    cycleStages := fun k =>
      match k with
      | LifecycleStageKey.modelOperation =>
          ImpactConfig.dynamic "https://api.example/co2" "secretA"
      | _ => ImpactConfig.none }

/-- The same record with token "secretB" instead. -/
def dynServiceB : AIServiceLifecycleImpact :=
  { serviceId := "svc-dyn"
    name := "Dyn"
    description := ""
    cycleStages := fun k =>
      match k with
      | LifecycleStageKey.modelOperation =>
          ImpactConfig.dynamic "https://api.example/co2" "secretB"
      | _ => ImpactConfig.none }

/-- C7 witness: two records differing only in the token of their dynamic
stage export the placeholder marker, the URL column, and identical row
sequences. -/
theorem C7_token_confidentiality_witness :
    (exportRow dynServiceA LifecycleStageKey.modelOperation).co2EqInKg
        = CsvValue.str "Dynamic (API)" ∧
    (exportRow dynServiceA LifecycleStageKey.modelOperation).httpApiUrl
        = some "https://api.example/co2" ∧
    handleExportToCsvRows dynServiceA = handleExportToCsvRows dynServiceB := by
  have herase : eraseTokens dynServiceA = eraseTokens dynServiceB := by
    unfold eraseTokens
    congr 1
    funext k
    cases k <;> rfl
  have h := C7_token_confidentiality dynServiceA dynServiceA dynServiceB
    LifecycleStageKey.modelOperation "https://api.example/co2" "secretA"
    rfl herase
  exact ⟨h.1, h.2.1, h.2.2.2⟩

/-- The shape of a JSON file that parsed: the fields the upload handler
checks for truthiness (`!parsedConfig.serviceId || !parsedConfig.name ||
!parsedConfig.cycleStages`); an empty string is falsy, a missing
`cycleStages` is `Option.none`. -/
structure ParsedService where
  serviceId : String
  name : String
  description : String
  cycleStages : Option (LifecycleStageKey → ImpactConfig)

/-- The outcome of `JSON.parse` on one uploaded file: a thrown parse error
(with its environment-specific message) or a parsed object. -/
inductive FileContent
  | invalidJson (errMsg : String)
  | parsed (svc : ParsedService)

/-- One uploaded file of a multi-file batch. -/
structure UploadFile where
  name : String
  content : FileContent

/-- The admission check of `handleFilesChange` (CompareServicesPage.tsx
lines 117-151): the file parsed and `serviceId`, `name`, `cycleStages` are
all truthy. -/
def validFileB (f : UploadFile) : Bool :=
  match f.content with
  | FileContent.parsed svc =>
      (svc.serviceId != "") && (svc.name != "") && svc.cycleStages.isSome
  | FileContent.invalidJson _ => false

/-- The error message pushed for one invalid file: for a parse failure
`Error processing NAME: MESSAGE`, for a structural failure
`Error processing NAME: File NAME: Invalid structure.` (the thrown
`Error`'s message interpolated after the common prefix). -/
def errMsgFor (f : UploadFile) : String :=
  match f.content with
  | FileContent.invalidJson m => "Error processing " ++ f.name ++ ": " ++ m
  | FileContent.parsed _ =>
      "Error processing " ++ f.name ++ ": "
        ++ ("File " ++ f.name ++ ": Invalid structure.")

/-- JavaScript `Map.set` on a serviceId-keyed map represented as an assoc list in
insertion order: an existing key is replaced in place, a new key appended. -/
def setEntry (m : List (String × ParsedService)) (k : String)
    (v : ParsedService) : List (String × ParsedService) :=
  if m.any (fun p => p.1 == k) then
    m.map (fun p => if p.1 == k then (k, v) else p)
  else m ++ [(k, v)]

/-- One iteration of the upload loop: a valid file is added to (or replaces
its serviceId in) the services map, an invalid one appends its error
message to the accumulator; processing always continues. -/
def processFilesStep (acc : List (String × ParsedService) × List String)
    (f : UploadFile) : List (String × ParsedService) × List String :=
  match f.content with
  | FileContent.parsed svc =>
      if validFileB f then (setEntry acc.1 svc.serviceId svc, acc.2)
      else (acc.1, acc.2 ++ [errMsgFor f])
  | FileContent.invalidJson _ => (acc.1, acc.2 ++ [errMsgFor f])

/-- The whole batch loop of `handleFilesChange`, starting from the current
services map and an empty error accumulator. -/
def processFiles (files : List UploadFile)
    (init : List (String × ParsedService)) :
    List (String × ParsedService) × List String :=
  files.foldl processFilesStep (init, [])

/-- The call `setError(errorsAccumulator.join('\n'))`, only issued when at least one
error accumulated. -/
def batchError (errs : List String) : Option String :=
  if errs = [] then Option.none else some (String.intercalate "\n" errs)

/-- The error component of one loop step. -/
theorem processFilesStep_snd (acc : List (String × ParsedService) × List String)
    (f : UploadFile) :
    (processFilesStep acc f).2
      = if validFileB f then acc.2 else acc.2 ++ [errMsgFor f] := by
  cases hcont : f.content with
  | parsed svc =>
      simp only [processFilesStep, hcont]
      split <;> rfl
  | invalidJson m =>
      have hv : validFileB f = false := by simp [validFileB, hcont]
      simp [processFilesStep, hcont, hv]

/-- The map component of one loop step is unchanged by an invalid file. -/
theorem processFilesStep_fst_invalid
    (acc : List (String × ParsedService) × List String) (f : UploadFile)
    (hv : validFileB f = false) : (processFilesStep acc f).1 = acc.1 := by
  cases hcont : f.content with
  | parsed svc =>
      simp only [processFilesStep, hcont]
      rw [if_neg (by simp [hv])]
  | invalidJson m => simp [processFilesStep, hcont]

/-- The accumulated errors are exactly one message per invalid file, in
batch order, appended to whatever was accumulated before. -/
theorem processFiles_errors_aux (files : List UploadFile)
    (m : List (String × ParsedService)) (errs : List String) :
    (files.foldl processFilesStep (m, errs)).2
      = errs ++ (files.filter (fun f => !(validFileB f))).map errMsgFor := by
  induction files generalizing m errs with
  | nil => simp
  | cons f rest ih =>
      rw [List.foldl_cons]
      by_cases hv : validFileB f = true
      · have hstep2 : (processFilesStep (m, errs) f).2 = errs := by
          rw [processFilesStep_snd, if_pos hv]
        have : (rest.foldl processFilesStep (processFilesStep (m, errs) f)).2
            = errs ++ (rest.filter (fun f => !(validFileB f))).map errMsgFor := by
          rw [show processFilesStep (m, errs) f
              = ((processFilesStep (m, errs) f).1, errs) from
            Prod.ext rfl hstep2]
          exact ih _ _
        rw [this, List.filter_cons]
        simp [hv]
      · have hvf : validFileB f = false := Bool.not_eq_true _ ▸ eq_false_of_ne_true hv
        have hstep : processFilesStep (m, errs) f = (m, errs ++ [errMsgFor f]) := by
          refine Prod.ext ?_ ?_
          · simp [processFilesStep_fst_invalid _ _ hvf]
          · rw [processFilesStep_snd, if_neg (by simp [hvf])]
        rw [hstep, ih, List.filter_cons]
        simp [hvf]

/-- Invalid files do not affect the resulting services map: folding over a
batch produces the same map as folding over only its valid files. -/
theorem processFiles_fst_filter (files : List UploadFile)
    (m : List (String × ParsedService)) (errs errs' : List String) :
    (files.foldl processFilesStep (m, errs)).1
      = ((files.filter validFileB).foldl processFilesStep (m, errs')).1 := by
  induction files generalizing m errs errs' with
  | nil => simp
  | cons f rest ih =>
      rw [List.foldl_cons, List.filter_cons]
      by_cases hv : validFileB f = true
      · rw [if_pos hv, List.foldl_cons]
        cases hcont : f.content with
        | invalidJson msg => simp [validFileB, hcont] at hv
        | parsed svc =>
            have hstep : ∀ e : List String,
                processFilesStep (m, e) f = (setEntry m svc.serviceId svc, e) := by
              intro e
              simp [processFilesStep, hcont, hv]
            rw [hstep errs, hstep errs']
            exact ih _ _ _
      · have hvf : validFileB f = false := Bool.not_eq_true _ ▸ eq_false_of_ne_true hv
        rw [if_neg (by simp [hvf])]
        have hstep : processFilesStep (m, errs) f
            = (m, (processFilesStep (m, errs) f).2) :=
          Prod.ext (processFilesStep_fst_invalid (m, errs) f hvf) rfl
        rw [hstep]
        exact ih m _ errs'

/-- After setting key `k`, the map's key list contains `k`. -/
theorem mem_keys_setEntry_self (m : List (String × ParsedService))
    (k : String) (v : ParsedService) :
    k ∈ (setEntry m k v).map Prod.fst := by
  unfold setEntry
  split
  · rename_i hany
    obtain ⟨p, hp, hpk⟩ := List.any_eq_true.mp hany
    have : (k, v) ∈ m.map fun p => if p.1 == k then (k, v) else p := by
      refine List.mem_map.mpr ⟨p, hp, ?_⟩
      rw [if_pos hpk]
    exact List.mem_map.mpr ⟨(k, v), this, rfl⟩
  · simp

/-- Setting one key preserves the presence of every key. -/
theorem mem_keys_setEntry_of_mem (m : List (String × ParsedService))
    (k j : String) (v : ParsedService) (h : j ∈ m.map Prod.fst) :
    j ∈ (setEntry m k v).map Prod.fst := by
  unfold setEntry
  split
  · obtain ⟨p, hp, hpj⟩ := List.mem_map.mp h
    refine List.mem_map.mpr ⟨if p.1 == k then (k, v) else p, List.mem_map_of_mem _ hp, ?_⟩
    by_cases hpk : p.1 == k
    · rw [if_pos hpk]
      have : p.1 = k := by simpa using hpk
      rw [← hpj, this]
    · rw [if_neg hpk]
      exact hpj
  · rw [List.map_append]
    exact List.mem_append_left _ h

/-- Every key present in the accumulator stays present through the batch loop. -/
theorem processFiles_keys_mono (files : List UploadFile)
    (m : List (String × ParsedService)) (errs : List String) (j : String)
    (h : j ∈ m.map Prod.fst) :
    j ∈ ((files.foldl processFilesStep (m, errs)).1).map Prod.fst := by
  induction files generalizing m errs with
  | nil => simpa using h
  | cons f rest ih =>
      rw [List.foldl_cons]
      cases hcont : f.content with
      | invalidJson msg =>
          have hstep : processFilesStep (m, errs) f = (m, errs ++ [errMsgFor f]) := by
            simp [processFilesStep, hcont]
          rw [hstep]
          exact ih m _ h
      | parsed svc =>
          by_cases hvb : validFileB f = true
          · have hstep : processFilesStep (m, errs) f
                = (setEntry m svc.serviceId svc, errs) := by
              simp [processFilesStep, hcont, hvb]
            rw [hstep]
            exact ih _ _ (mem_keys_setEntry_of_mem m svc.serviceId j svc h)
          · have hstep : processFilesStep (m, errs) f
                = (m, errs ++ [errMsgFor f]) := by
              simp [processFilesStep, hcont, hvb]
            rw [hstep]
            exact ih m _ h

/-- Every valid file of the batch leaves its serviceId present in the final
services map. -/
theorem processFiles_valid_mem_aux (files : List UploadFile)
    (m : List (String × ParsedService)) (errs : List String)
    (f : UploadFile) (svc : ParsedService) (hmem : f ∈ files)
    (hcont : f.content = FileContent.parsed svc) (hv : validFileB f = true) :
    svc.serviceId ∈ ((files.foldl processFilesStep (m, errs)).1).map Prod.fst := by
  induction files generalizing m errs with
  | nil => cases hmem
  | cons g rest ih =>
      rw [List.foldl_cons]
      rcases List.mem_cons.mp hmem with hg | hrest
      · subst hg
        have hstep : processFilesStep (m, errs) f
            = (setEntry m svc.serviceId svc, errs) := by
          simp [processFilesStep, hcont, hv]
        rw [hstep]
        exact processFiles_keys_mono rest _ _ _
          (mem_keys_setEntry_self m svc.serviceId svc)
      · exact ih _ _ hrest

/-- C8: for every uploaded batch, (i) the error accumulator holds exactly one
message per invalid file, in batch order; (ii) each message names its file
(it starts with "Error processing NAME: "); (iii) the aggregated report joins
them into a single string when nonempty; (iv) invalid files never affect the
accepted services (the map equals the one obtained from the valid files
alone); and (v) every valid file's serviceId is present in the final
services map. -/
theorem C8_batch_upload :
    (∀ (files : List UploadFile) (init : List (String × ParsedService)),
      (processFiles files init).2
        = (files.filter (fun f => !(validFileB f))).map errMsgFor) ∧
    (∀ f : UploadFile,
      ∃ rest, errMsgFor f = "Error processing " ++ f.name ++ ": " ++ rest) ∧
    (∀ errs : List String, errs ≠ [] →
      batchError errs = some (String.intercalate "\n" errs)) ∧
    (∀ (files : List UploadFile) (init : List (String × ParsedService)),
      (processFiles files init).1
        = (processFiles (files.filter validFileB) init).1) ∧
    (∀ (files : List UploadFile) (init : List (String × ParsedService))
       (f : UploadFile) (svc : ParsedService),
      f ∈ files → f.content = FileContent.parsed svc → validFileB f = true →
      svc.serviceId ∈ ((processFiles files init).1).map Prod.fst) := by
  refine ⟨?_, ?_, ?_, ?_, ?_⟩
  · intro files init
    simpa using processFiles_errors_aux files init []
  · intro f
    cases hcont : f.content with
    | invalidJson msgx => exact ⟨msgx, by simp [errMsgFor, hcont]⟩
    | parsed svc =>
        exact ⟨"File " ++ f.name ++ ": Invalid structure.",
          by simp [errMsgFor, hcont]⟩
  · intro errs hne
    simp [batchError, hne]
  · intro files init
    exact processFiles_fst_filter files init [] []
  · intro files init f svc hmem hcont hv
    exact processFiles_valid_mem_aux files init [] f svc hmem hcont hv

/-- A concrete valid file with serviceId "svc-1". -/
def file1 : UploadFile :=
  { name := "service1.json"
    content := FileContent.parsed
      { serviceId := "svc-1", name := "Service One", description := ""
        cycleStages := some allNoneStages } }

/-- A concrete file whose content is not valid JSON. -/
def file2bad : UploadFile :=
  { name := "service2.json"
    content := FileContent.invalidJson "Unexpected token" }

/-- A concrete valid file with serviceId "svc-3". -/
def file3 : UploadFile :=
  { name := "service3.json"
    content := FileContent.parsed
      { serviceId := "svc-3", name := "Service Three", description := ""
        cycleStages := some allNoneStages } }

/-- C8 witness (scenario example 4): uploading three files of which the
second is invalid JSON accepts the services of files 1 and 3 and accumulates
a single error message that names file 2. -/
theorem C8_batch_upload_witness :
    "svc-1" ∈ ((processFiles [file1, file2bad, file3] []).1).map Prod.fst ∧
    "svc-3" ∈ ((processFiles [file1, file2bad, file3] []).1).map Prod.fst ∧
    (processFiles [file1, file2bad, file3] []).2
      = ["Error processing service2.json: Unexpected token"] := by
  refine ⟨?_, ?_, ?_⟩
  · exact C8_batch_upload.2.2.2.2 [file1, file2bad, file3] [] file1
      { serviceId := "svc-1", name := "Service One", description := ""
        cycleStages := some allNoneStages }
      (by simp) rfl (by decide)
  · exact C8_batch_upload.2.2.2.2 [file1, file2bad, file3] [] file3
      { serviceId := "svc-3", name := "Service Three", description := ""
        cycleStages := some allNoneStages }
      (by simp) rfl (by decide)
  · rw [C8_batch_upload.1 [file1, file2bad, file3] []]
    rfl

/-- Function `nextStep` from CreateServicePage.tsx (lines 128-135): from the Metadata
step with hardware excluded, skip straight to the Software Stages step;
otherwise advance by one.  `includeHardware : Bool` is the truthiness of the
wizard state's `includeHardware` (`null` being falsy). -/
def nextStep (includeHardware : Bool) (currentStep : ℤ) : ℤ :=
  if currentStep = 1 ∧ includeHardware = false then 3 else currentStep + 1

/-- Function `prevStep` (lines 137-143): from the Software Stages step with hardware
excluded, go back to the Metadata step; otherwise go back by one. -/
def prevStep (includeHardware : Bool) (currentStep : ℤ) : ℤ :=
  if currentStep = 3 ∧ includeHardware = false then 1 else currentStep - 1

/-- The steps reachable from the wizard's initial step 0 through
`nextStep` / `prevStep` with a fixed `includeHardware`. -/
inductive WizardReachable (hw : Bool) : ℤ → Prop
  | init : WizardReachable hw 0
  | next (s : ℤ) : WizardReachable hw s → WizardReachable hw (nextStep hw s)
  | back (s : ℤ) : WizardReachable hw s → WizardReachable hw (prevStep hw s)

/-- C9: with hardware inclusion false, advancing from the Metadata step (1)
goes directly to the Software Stages step (3), going back from step 3
returns to step 1, and no state reachable through next/back transitions is
ever the Hardware Stages step (2). -/
theorem C9_wizard_skips_hardware :
    nextStep false 1 = 3 ∧ prevStep false 3 = 1 ∧
    ∀ s : ℤ, WizardReachable false s → s ≠ 2 := by
  refine ⟨by norm_num [nextStep], by norm_num [prevStep], ?_⟩
  intro s h
  induction h with
  | init => norm_num
  | next s' h ih =>
      unfold nextStep
      split
      · norm_num
      · rename_i hcond
        intro h2
        exact hcond ⟨by omega, rfl⟩
  | back s' h ih =>
      unfold prevStep
      split
      · norm_num
      · rename_i hcond
        intro h2
        exact hcond ⟨by omega, rfl⟩

/-- C9 witness: step 3 is reachable with hardware excluded (0 → 1 → 3) and
the invariant theorem yields 3 ≠ 2 for it. -/
theorem C9_wizard_skips_hardware_witness :
    WizardReachable false 3 ∧ (3 : ℤ) ≠ 2 := by
  have h1 : WizardReachable false 1 := by
    have h : WizardReachable false (nextStep false 0) :=
      WizardReachable.next 0 WizardReachable.init
    simpa [nextStep] using h
  have h3 : WizardReachable false 3 := by
    have h : WizardReachable false (nextStep false 1) :=
      WizardReachable.next 1 h1
    simpa [nextStep] using h
  exact ⟨h3, C9_wizard_skips_hardware.2.2 3 h3⟩

/-- Replace every dynamic stage's URL and token by the empty string, keeping
everything else: metrics that are unchanged under this erasure cannot depend
on any URL or token. -/
def eraseDynamic (s : AIServiceLifecycleImpact) : AIServiceLifecycleImpact :=
  { s with
    cycleStages := fun k =>
      match s.cycleStages k with
      | ImpactConfig.dynamic _ _ => ImpactConfig.dynamic "" ""
      | c => c }

/-- Helper: `calculateStaticCO2` is unchanged by dynamic-stage erasure. -/
theorem calculateStaticCO2_eraseDynamic (s : AIServiceLifecycleImpact)
    (k : LifecycleStageKey) :
    calculateStaticCO2 (eraseDynamic s) k = calculateStaticCO2 s k := by
  unfold calculateStaticCO2 eraseDynamic
  cases hc : s.cycleStages k <;> simp [hc]

/-- The whole per-service metrics record is unchanged by dynamic-stage
erasure. -/
theorem serviceMetrics_eraseDynamic (s : AIServiceLifecycleImpact)
    (index : ℕ) (counts : String → Option ℚ) :
    serviceMetrics (eraseDynamic s) index counts = serviceMetrics s index counts := by
  unfold serviceMetrics
  simp only [calculateStaticCO2_eraseDynamic]
  rfl

/-- The metrics list is unchanged by erasing every service's dynamic stages. -/
theorem allMetricsFrom_eraseDynamic (counts : String → Option ℚ) (index : ℕ)
    (services : List AIServiceLifecycleImpact) :
    allMetricsFrom counts index (services.map eraseDynamic)
      = allMetricsFrom counts index services := by
  induction services generalizing index with
  | nil => rfl
  | cons s rest ih =>
      simp only [List.map_cons, allMetricsFrom,
        serviceMetrics_eraseDynamic, ih]

/-- C10: a `dynamic` stage contributes exactly 0 to the comparison metrics
(`calculateStaticCO2` yields 0 on it), and the full comparison pipeline —
per-service metrics and the normalized radar table — is invariant under
erasing every dynamic stage's URL and token, so it never depends on URLs,
tokens, or dynamic-state values (which it does not even receive). -/
theorem C10_dynamic_stages_inert (s : AIServiceLifecycleImpact)
    (k : LifecycleStageKey) (url token : String)
    (hdyn : s.cycleStages k = ImpactConfig.dynamic url token) :
    calculateStaticCO2 s k = 0 ∧
    (∀ (services : List AIServiceLifecycleImpact) (counts : String → Option ℚ),
      allMetrics (services.map eraseDynamic) counts = allMetrics services counts) ∧
    (∀ (services : List AIServiceLifecycleImpact) (counts : String → Option ℚ),
      transformedData (allMetrics (services.map eraseDynamic) counts)
        = transformedData (allMetrics services counts)) := by
  refine ⟨?_, ?_, ?_⟩
  · unfold calculateStaticCO2
    rw [hdyn]
  · intro services counts
    exact allMetricsFrom_eraseDynamic counts 0 services
  · intro services counts
    exact congrArg transformedData (allMetricsFrom_eraseDynamic counts 0 services)

/-- C10 witness: the inertness theorem applied to a concrete record whose
`modelOperation` stage is dynamic. -/
theorem C10_dynamic_stages_inert_witness :
    calculateStaticCO2 dynServiceA LifecycleStageKey.modelOperation = 0 ∧
    allMetrics ([dynServiceA].map eraseDynamic) (fun _ => Option.none)
      = allMetrics [dynServiceA] (fun _ => Option.none) := by
  have h := C10_dynamic_stages_inert dynServiceA
    LifecycleStageKey.modelOperation "https://api.example/co2" "secretA" rfl
  exact ⟨h.1, h.2.1 [dynServiceA] (fun _ => Option.none)⟩
